import Mathlib

set_option maxHeartbeats 1000000

namespace MlDl

/-! Shallow embedding of the ml_dl_pkg orchestration core:
`ml/models/base_model.py`, `ml/models/model_manager.py`,
`ml/models/train_managers/ml_train_manager.py` and
`ml/models/ml_models/decision_trees.py`. Machine floats are modelled as
rationals; Python dicts as association lists or functions; exceptions and
`exit(1)` as `Except`/`Option`/explicit outcome values. -/

/-- Task kind from the `--task-type` argument, choices `classify`/`regress`. -/
inductive TaskType where
  | classify
  | regress
deriving DecidableEq

/-- The torch loss criterion bound by `BaseModel._set_criterion`:
either `torch.nn.MSELoss()` or `torch.nn.BCELoss(weight=...)` (binary
cross-entropy carrying the configured weight tensor). -/
inductive Criterion where
  | mseLoss
  | bceLoss (weight : List ℚ)
deriving DecidableEq

/-- Configuration failures raised during `BaseModel.__init__`: a missing
required cfg key (`_check_cfg` assert) or the
`len(class_labels) == len(loss_weight)` assert in `_set_criterion`. -/
inductive ConfigError where
  | missingKey (key : String)
  | lossWeightMismatch
deriving DecidableEq

/-- The slice of the run-config dict that `BaseModel` reads: the set of
present keys, the task type, the loss weights and the model path. -/
structure ModelCfg where
  keys : List String
  task_type : TaskType
  loss_weight : List ℚ
  model_path : String

/-- Embeds `BaseModel._check_cfg`: assert each required key is present in
the cfg dict; the first missing key aborts construction. -/
def check_cfg (cfg : ModelCfg) (must_contain_keys : List String) : Except ConfigError Unit :=
  match must_contain_keys.find? (fun k => decide (k ∉ cfg.keys)) with
  | some k => Except.error (ConfigError.missingKey k)
  | none => Except.ok ()

/-- Embeds `BaseModel._set_criterion`: `regress` binds `torch.nn.MSELoss()`;
otherwise (classify) it first asserts
`len(class_labels) == len(loss_weight)` and then binds
`torch.nn.BCELoss(weight=torch.tensor(loss_weight))`. -/
def set_criterion (class_labels : List String) (cfg : ModelCfg) : Except ConfigError Criterion :=
  match cfg.task_type with
  | TaskType.regress => Except.ok Criterion.mseLoss
  | TaskType.classify =>
    if class_labels.length = cfg.loss_weight.length then
      Except.ok (Criterion.bceLoss cfg.loss_weight)
    else
      Except.error ConfigError.lossWeightMismatch

/-- State built by `BaseModel.__init__`: class labels, the bound criterion
and the `fitted` flag, which starts `False`. -/
structure BaseModelState where
  class_labels : List String
  criterion : Criterion
  fitted : Bool
deriving DecidableEq

/-- Embeds `BaseModel.__init__`: check the required keys, bind the
criterion, set `fitted = False`. Any assert failure aborts construction. -/
def base_model_init (class_labels : List String) (cfg : ModelCfg)
    (must_contain_keys : List String) : Except ConfigError BaseModelState := do
  let _ ← check_cfg cfg must_contain_keys
  let c ← set_criterion class_labels cfg
  pure { class_labels := class_labels, criterion := c, fitted := false }

/-- Runtime failure of a backend operation. -/
inductive MLError where
  | modelNotFitted
deriving DecidableEq

/-- Modelled from the spec: the concrete backends `NNModel`/`MLModel`
(`ml/models/nn_model.py`, `ml/models/ml_model.py`), to which
`BaseModel.save_model` delegates, are not under src. Per the spec,
`save_model` invoked while `fitted` is false fails with
`ModelNotFittedError` propagated to the caller. -/
def backend_save_model (st : BaseModelState) : Except MLError Unit :=
  if st.fitted then Except.ok () else Except.error MLError.modelNotFitted

/-- Modelled from the spec: the concrete backends' `predict` (not under
src) fails with `ModelNotFittedError` while `fitted` is false, and
otherwise returns one prediction per input row via the wrapped model. -/
def backend_predict (f : List ℚ → List ℚ) (st : BaseModelState) (inputs : List ℚ) :
    Except MLError (List ℚ) :=
  if st.fitted then Except.ok (f inputs) else Except.error MLError.modelNotFitted

/-- Outcome of `BaseModel.load_model`: either the checkpoint loads, or the
`FileNotFoundError` branch prints the exception plus the missing
`model_path` and calls `exit(1)`, terminating the process. -/
inductive LoadOutcome where
  | loaded
  | exited (code : ℕ) (diagnosed_path : String)
deriving DecidableEq

/-- Embeds `BaseModel.load_model` over an abstract file system
(`file_exists : path -> Bool`): a present checkpoint loads; an absent one
is caught, diagnosed with the configured path, and ends in `exit(1)`. -/
def load_model_run (file_exists : String → Bool) (model_path : String) : LoadOutcome :=
  if file_exists model_path then LoadOutcome.loaded
  else LoadOutcome.exited 1 model_path

/-- The sentinel pre-fill value of `BaseModelManager._predict`:
`np.zeros(...) - 1000000`. -/
def sentinel : ℚ := -1000000

/-- Numpy slice assignment `buf[start:start+len(vals)] = vals` (in-bounds
case): the written span replaces the old contents. -/
def write_slice (buf : List ℚ) (start : ℕ) (vals : List ℚ) : List ℚ :=
  buf.take start ++ vals ++ buf.drop (start + vals.length)

/-- The batch loop of `BaseModelManager._predict`: batch `i` (of values
already flattened to one column) is written at offset `i * batch_size`. -/
def fill_loop (B : ℕ) : ℕ → List (List ℚ) → List ℚ → List ℚ
  | _, [], buf => buf
  | i, b :: bs, buf => fill_loop B (i + 1) bs (write_slice buf (i * B) b)

/-- The filled buffer of `_predict`: `num_batches * batch_size` slots
pre-filled with the sentinel, then overwritten batch by batch. -/
def predict_fill (B : ℕ) (batches : List (List ℚ)) : List ℚ :=
  fill_loop B 0 batches (List.replicate (batches.length * B) sentinel)

/-- The value returned by `_predict` for one of its two buffers:
`buf[~(buf == -1000000)]`, i.e. every entry different from the sentinel,
in buffer order. -/
def predict_agg (B : ℕ) (batches : List (List ℚ)) : List ℚ :=
  (predict_fill B batches).filter (fun x => decide (x ≠ sentinel))

/-- Embeds the control flow of `BaseModelManager.test(load_best=...)` up to
the prediction aggregation: with `load_best`, `load_model` runs first and
its `exit(1)` terminates the process (no value is ever returned, modelled
as `none`); otherwise `_predict` assembles the two stripped arrays. -/
def test_run (file_exists : String → Bool) (model_path : String) (B : ℕ)
    (pred_batches label_batches : List (List ℚ)) (load_best : Bool) :
    Option (List ℚ × List ℚ) :=
  if load_best then
    match load_model_run file_exists model_path with
    | LoadOutcome.exited _ _ => none
    | LoadOutcome.loaded => some (predict_agg B pred_batches, predict_agg B label_batches)
  else some (predict_agg B pred_batches, predict_agg B label_batches)

/-- Modelled from the spec: the `AverageMeter` of `ml.utils` (not under
src) keeps a last value, a running sum and count, and a remembered best
score; `average = sum / count`. -/
structure AverageMeter where
  value : ℚ
  sum : ℚ
  count : ℕ
  best_score : ℚ
deriving DecidableEq

/-- The running average `sum / count` of a meter. -/
def AverageMeter.average (m : AverageMeter) : ℚ :=
  m.sum / (m.count : ℚ)

/-- Improvement direction of a metric. -/
inductive Direction where
  | lowerIsBetter
  | higherIsBetter
deriving DecidableEq

/-- Modelled from the spec: `update_best` (in `ml.utils`, not under src)
compares the current average against the stored best per the metric's
direction; on strict improvement it stores the average as the new best and
returns true, otherwise it returns false and changes nothing. -/
def update_best (dir : Direction) (m : AverageMeter) : Bool × AverageMeter :=
  let avg := m.average
  let improved :=
    match dir with
    | Direction.lowerIsBetter => decide (avg < m.best_score)
    | Direction.higherIsBetter => decide (avg > m.best_score)
  if improved then (true, { m with best_score := avg }) else (false, m)

/-- Modelled from the spec: `update` folds one per-batch scalar into the
meter: last value, `sum += v`, `count += 1`; the best is untouched. -/
def meter_update (m : AverageMeter) (v : ℚ) : AverageMeter :=
  { m with value := v, sum := m.sum + v, count := m.count + 1 }

/-- A metric as seen by `BaseModelManager`: name, the `save_model`
checkpoint-trigger flag, a direction, and one `AverageMeter` per phase
(`metric.average_meter[phase]`). -/
structure MMetric where
  name : String
  save_model : Bool
  direction : Direction
  meters : String → AverageMeter

/-- Calls the orchestrator makes on the backend at end of phase. -/
inductive BackendCall where
  | save
  | anneal (factor : ℚ)
  | epochHook (phase : String)
deriving DecidableEq

/-- One iteration of the metric loop of `BaseModelManager._update_by_epoch`
for one metric: run `update_best` on the phase's meter, remember its flag,
then reset the meter (sum/count/value cleared, best kept). -/
def upd_epoch_metric (phase : String) (m : MMetric) : MMetric × Bool :=
  let fm := update_best m.direction (m.meters phase)
  let meterReset : AverageMeter := { fm.2 with value := 0, sum := 0, count := 0 }
  ({ m with meters := fun ph => if ph = phase then meterReset else m.meters ph }, fm.1)

/-- The metric loop of `_update_by_epoch`: per metric, `update_best`, then
`self.model.save_model()` exactly when
`metric.save_model and best_flag and phase == 'val'`, then reset. Returns
the updated metrics and the backend calls emitted, in order. -/
def upd_epoch_loop (phase : String) : List MMetric → List MMetric × List BackendCall
  | [] => ([], [])
  | m :: ms =>
    let r := upd_epoch_metric phase m
    let rest := upd_epoch_loop phase ms
    let here : List BackendCall :=
      if m.save_model = true ∧ r.2 = true ∧ phase = "val" then [BackendCall.save] else []
    (r.1 :: rest.1, here ++ rest.2)

/-- Embeds `BaseModelManager._update_by_epoch(phase, epoch, learning_anneal)`
(the epoch/phase bookkeeping at the end of every phase): the metric loop,
then `self.model.anneal_lr(learning_anneal)` exactly when
`phase == 'train'`. No other backend call is made. -/
def update_by_epoch_mgr (phase : String) (learning_anneal : ℚ) (metrics : List MMetric) :
    List MMetric × List BackendCall :=
  let r := upd_epoch_loop phase metrics
  (r.1, r.2 ++ (if phase = "train" then [BackendCall.anneal learning_anneal] else []))

/-- The metric loop of `BaseModelManager.test` after `_predict`: walks the
metric list threading the Python local `loss_value` (`none` while still
unbound). A metric named `loss` is skipped for classify; for regress it
recomputes `loss_value` only for model types rnn/cnn (`is_nn`,
`crit_val` abstracts `self.model.criterion(...)`); any other metric sets
`loss_value = 10000000`. Each non-skipped metric is then updated with the
current `loss_value`; using it while unbound is Python's
`UnboundLocalError`, modelled as `none` (the call aborts). Returns the
`(metric name, loss_value)` update calls in order. -/
def test_metric_loop (classify is_nn : Bool) (crit_val : ℚ) :
    List String → Option ℚ → Option (List (String × ℚ))
  | [], _ => some []
  | name :: rest, loss_value =>
    if name = "loss" then
      if classify = true then
        test_metric_loop classify is_nn crit_val rest loss_value
      else
        match (if is_nn then some crit_val else loss_value) with
        | none => none
        | some v =>
          (test_metric_loop classify is_nn crit_val rest (some v)).map
            (fun us => (name, v) :: us)
    else
      (test_metric_loop classify is_nn crit_val rest (some ((10000000 : ℚ)))).map
        (fun us => (name, (10000000 : ℚ)) :: us)

/-- The update calls `BaseModelManager.test` issues to its metrics, given
the metric names in order; `loss_value` starts unbound. -/
def test_metric_updates (classify is_nn : Bool) (crit_val : ℚ) (names : List String) :
    Option (List (String × ℚ)) :=
  test_metric_loop classify is_nn crit_val names none

/-- A metric as seen by `MLTrainManager.train` (`ml.utils.utils.Metrics`,
one meter per metric since the manager keeps a dict phase -> metric list):
a name, the scoring function folding `(loss, predicts, labels)` to the
per-call scalar (the concrete scorers are not under src), and its meter. -/
structure TMetric where
  name : String
  scoreFn : ℚ → List ℚ → List ℚ → ℚ
  meter : AverageMeter

/-- What one completed `MLTrainManager.train` call produces: the updated
per-phase metrics dict, whether `save_model` was invoked, and
`list(predicts.values())[-1]`. -/
structure MLTrainResult where
  metricsOut : List (String × List TMetric)
  saveCalled : Bool
  predictsLast : List ℚ

/-- The phase list computed at the top of `MLTrainManager.train` from
`with_validate` and `only_validate`. -/
def phases_of (with_validate only_validate : Bool) : List String :=
  if only_validate then ["val"]
  else if with_validate then ["train", "val"] else ["train"]

/-- Embeds `MLTrainManager.train`: compute the phases, assert every phase
has a dataloader (and a metrics entry); when `train` is among the phases,
call `model_manager.fit` once over the materialized split (with the val
split exactly when `early_stopping` and a val phase exist), then for every
executed phase update each of its metrics and overwrite
`average_meter.best_score` with the current average, and finally call
`model_manager.save_model()` unconditionally. When `train` is not among the
phases (`only_validate`), the metric loop reads the unbound Python local
`loss` and the call aborts (`none`). `fitF`, `predictF`, `labelsF` abstract
the model manager and dataloaders (not under src). -/
def mltm_train (with_validate only_validate early_stopping : Bool)
    (loader_keys : List String) (fitF : Bool → ℚ)
    (predictF : String → List ℚ) (labelsF : String → List ℚ)
    (metrics : List (String × List TMetric)) : Option MLTrainResult :=
  let phases := phases_of with_validate only_validate
  if ∀ p ∈ phases, p ∈ loader_keys ∧ (metrics.lookup p).isSome = true then
    if "train" ∈ phases then
      let loss := fitF (early_stopping && phases.contains "val")
      let upd := fun (ph : String) (l : List TMetric) =>
        l.map (fun m =>
          let m1 : TMetric :=
            { m with meter := meter_update m.meter (m.scoreFn loss (predictF ph) (labelsF ph)) }
          { m1 with meter := { m1.meter with best_score := m1.meter.average } })
      some { metricsOut := metrics.map (fun pl => (pl.1, if pl.1 ∈ phases then upd pl.1 pl.2 else pl.2)),
             saveCalled := true,
             predictsLast := predictF (phases.getLastD "") }
    else none
  else none

/-- The `best_score_` attribute the lightgbm sklearn wrapper exposes after
`fit`: an ordered dict keyed by evaluation-set name — the eval_set entry
equal to the training data is named `training`, the i-th other entry
`valid_i` — mapping to that set's metric scores. Modelled as an ordered
association list of name and score; `LightGBM.fit` passes
`eval_set = [(x, y)] (+ [(eval_x, eval_y)] when held-out data is given)`. -/
def lgbm_best_score (has_eval : Bool) (train_score valid_score : ℚ) : List (String × ℚ) :=
  if has_eval then [("training", train_score), ("valid_1", valid_score)]
  else [("training", train_score)]

/-- Embeds the return of `LightGBM.fit` in
`ml/models/ml_models/decision_trees.py`:
`list(self.model.best_score_.keys())[-1]` — the last dataset-name key of
`best_score_`, a string, not a score. -/
def lightgbm_fit_result (has_eval : Bool) (train_score valid_score : ℚ) : String :=
  ((lgbm_best_score has_eval train_score valid_score).map Prod.fst).getLastD ""

/-! Theorems. -/

/-- C5: for every classify-task configuration in which
`len(class_labels) != len(loss_weight)`, backend construction
(`BaseModel.__init__`) always fails immediately with a configuration
error — with the loss-weight mismatch error whenever the required keys are
present — so the failure can never be deferred to a later `fit`. -/
theorem C5_classify_mismatch_fails (labels : List String) (cfg : ModelCfg)
    (mk : List String) (htask : cfg.task_type = TaskType.classify)
    (hlen : labels.length ≠ cfg.loss_weight.length) :
    (∃ e, base_model_init labels cfg mk = Except.error e) ∧
    ((∀ k ∈ mk, k ∈ cfg.keys) →
      base_model_init labels cfg mk = Except.error ConfigError.lossWeightMismatch) := by
  have hcrit : set_criterion labels cfg = Except.error ConfigError.lossWeightMismatch := by
    simp [set_criterion, htask, hlen]
  constructor
  · cases hc : check_cfg cfg mk with
    | error e => exact ⟨e, by simp [base_model_init, hc, Bind.bind, Except.bind]⟩
    | ok u =>
      exact ⟨ConfigError.lossWeightMismatch,
        by simp [base_model_init, hc, hcrit, Bind.bind, Except.bind]⟩
  · intro hk
    have hc : check_cfg cfg mk = Except.ok () := by
      unfold check_cfg
      have : mk.find? (fun k => decide (k ∉ cfg.keys)) = none := by
        rw [List.find?_eq_none]
        intro k hkmem
        simpa using hk k hkmem
      rw [this]
    simp [base_model_init, hc, hcrit, Bind.bind, Except.bind]

/-- Witness for C5 at a concrete input: two class labels against one loss
weight fail construction with the mismatch error. -/
theorem C5_classify_mismatch_fails_witness :
    base_model_init ["a", "b"]
      { keys := [], task_type := TaskType.classify, loss_weight := [1], model_path := "p" } [] =
      Except.error ConfigError.lossWeightMismatch :=
  (C5_classify_mismatch_fails ["a", "b"] _ [] rfl (by decide)).2 (by simp)

/-- C6: criterion selection at backend construction — `regress` binds
mean-squared-error (`torch.nn.MSELoss`) and `classify` binds the (binary)
cross-entropy `torch.nn.BCELoss` weighted by the configured `loss_weight`
sequence. -/
theorem C6_criterion_selection (labels : List String) (cfg : ModelCfg) (mk : List String)
    (hkeys : check_cfg cfg mk = Except.ok ()) :
    (cfg.task_type = TaskType.regress →
      base_model_init labels cfg mk =
        Except.ok { class_labels := labels, criterion := Criterion.mseLoss, fitted := false }) ∧
    (cfg.task_type = TaskType.classify → labels.length = cfg.loss_weight.length →
      base_model_init labels cfg mk =
        Except.ok { class_labels := labels, criterion := Criterion.bceLoss cfg.loss_weight,
                    fitted := false }) := by
  constructor
  · intro ht
    simp [base_model_init, hkeys, set_criterion, ht, Bind.bind, Except.bind, pure, Except.pure]
  · intro ht hl
    simp [base_model_init, hkeys, set_criterion, ht, hl, Bind.bind, Except.bind, pure, Except.pure]

/-- Witness for C6 at concrete inputs: a regress config binds MSE and a
well-formed classify config binds weighted binary cross-entropy. -/
theorem C6_criterion_selection_witness :
    base_model_init []
        { keys := [], task_type := TaskType.regress, loss_weight := [], model_path := "p" } [] =
      Except.ok { class_labels := [], criterion := Criterion.mseLoss, fitted := false } ∧
    base_model_init ["a"]
        { keys := [], task_type := TaskType.classify, loss_weight := [1], model_path := "p" } [] =
      Except.ok { class_labels := ["a"], criterion := Criterion.bceLoss [1], fitted := false } :=
  ⟨(C6_criterion_selection [] _ [] rfl).1 rfl,
   (C6_criterion_selection ["a"] _ [] rfl).2 rfl rfl⟩

/-- C3: for every backend whose fitted flag is false, invoking `predict` or
`save_model` fails with `ModelNotFittedError` propagated to the caller
(spec-modelled: the concrete `NNModel`/`MLModel` backends are not under
src). -/
theorem C3_not_fitted_errors (st : BaseModelState) (f : List ℚ → List ℚ) (xs : List ℚ)
    (h : st.fitted = false) :
    backend_save_model st = Except.error MLError.modelNotFitted ∧
    backend_predict f st xs = Except.error MLError.modelNotFitted := by
  simp [backend_save_model, backend_predict, h]

/-- Witness for C3 at a concrete freshly-constructed (unfitted) backend. -/
theorem C3_not_fitted_errors_witness :
    backend_save_model { class_labels := [], criterion := Criterion.mseLoss, fitted := false } =
      Except.error MLError.modelNotFitted ∧
    backend_predict id { class_labels := [], criterion := Criterion.mseLoss, fitted := false } [1] =
      Except.error MLError.modelNotFitted :=
  C3_not_fitted_errors _ id [1] rfl

/-- Counterexample to C4 as stated: with no checkpoint present,
`load_model` ends in `exit(1)` (a process exit, not a `CheckpointLoadError`
surfaced to the caller) and `test(load_best=True)` therefore returns
nothing at all — in particular not a pair of zero-length prediction/label
arrays. -/
theorem C4_counterexample :
    load_model_run (fun _ => false) "m.pth" = LoadOutcome.exited 1 "m.pth" ∧
    test_run (fun _ => false) "m.pth" 2 [] [] true = none ∧
    test_run (fun _ => false) "m.pth" 2 [] [] true ≠ some ([], []) := by
  refine ⟨rfl, rfl, ?_⟩
  intro h
  exact Option.noConfusion h

/-- C4 (amended): when the checkpoint file at the configured `model_path`
is absent, `load_model` reports the failure with the path as diagnostic
context and is fatal — the process exits with code 1 — so the backend is
never silently left unfitted with execution continuing; a
`test(load_best=True)` call therefore terminates before producing any
predictions (it does not surface a `CheckpointLoadError` value nor return
zero predictions). -/
theorem C4_amended_load_fatal (file_exists : String → Bool) (mp : String) (B : ℕ)
    (pb lb : List (List ℚ)) (h : file_exists mp = false) :
    load_model_run file_exists mp = LoadOutcome.exited 1 mp ∧
    test_run file_exists mp B pb lb true = none := by
  constructor
  · simp [load_model_run, h]
  · simp [test_run, load_model_run, h]

/-- Witness for C4 (amended) at a concrete empty file system. -/
theorem C4_amended_load_fatal_witness :
    load_model_run (fun _ => false) "best.pth" = LoadOutcome.exited 1 "best.pth" ∧
    test_run (fun _ => false) "best.pth" 4 [] [] true = none :=
  C4_amended_load_fatal (fun _ => false) "best.pth" 4 [] [] rfl

/-- C8 evaluation (code bug): `LightGBM.fit` returns
`list(self.model.best_score_.keys())[-1]`, which is the last
evaluation-set NAME of `best_score_` — the string `valid_1` when a
held-out pair is supplied (`training` otherwise) — and not a scalar score,
although the adjacent commented-out line, the sibling models' `fit`, and
the caller (which stores it as `loss` and formats it as a float) all
expect a number. -/
theorem C8_lightgbm_fit_returns_key (ts vs : ℚ) :
    lightgbm_fit_result true ts vs = "valid_1" ∧
    lightgbm_fit_result false ts vs = "training" :=
  ⟨rfl, rfl⟩

/-- The metric loop of `_update_by_epoch` emits a save exactly when some
metric has the save flag, its `update_best` on the phase meter improved,
and the phase is `val`. -/
theorem upd_epoch_loop_save_mem (phase : String) (ms : List MMetric) :
    BackendCall.save ∈ (upd_epoch_loop phase ms).2 ↔
      ∃ m ∈ ms, m.save_model = true ∧
        (update_best m.direction (m.meters phase)).1 = true ∧ phase = "val" := by
  induction ms with
  | nil => simp [upd_epoch_loop]
  | cons m ms ih =>
    have hstep : (upd_epoch_loop phase (m :: ms)).2 =
        (if m.save_model = true ∧ (upd_epoch_metric phase m).2 = true ∧ phase = "val"
          then [BackendCall.save] else []) ++ (upd_epoch_loop phase ms).2 := rfl
    rw [hstep, List.mem_append]
    by_cases hc : m.save_model = true ∧ (upd_epoch_metric phase m).2 = true ∧ phase = "val"
    · rw [if_pos hc]
      constructor
      · intro _
        exact ⟨m, List.mem_cons_self _ _, hc.1, hc.2.1, hc.2.2⟩
      · intro _
        exact Or.inl (List.mem_singleton_self _)
    · rw [if_neg hc]
      constructor
      · intro h
        rcases h with h | h
        · exact absurd h (List.not_mem_nil _)
        · rcases ih.1 h with ⟨m', hm', hprop⟩
          exact ⟨m', List.mem_cons_of_mem _ hm', hprop⟩
      · rintro ⟨m', hm', h1, h2, h3⟩
        rcases List.mem_cons.1 hm' with rfl | hm''
        · exact absurd ⟨h1, h2, h3⟩ hc
        · exact Or.inr (ih.2 ⟨m', hm'', h1, h2, h3⟩)

/-- Every backend call emitted inside the metric loop of
`_update_by_epoch` is a save. -/
theorem upd_epoch_loop_calls_save (phase : String) (ms : List MMetric) :
    ∀ c ∈ (upd_epoch_loop phase ms).2, c = BackendCall.save := by
  induction ms with
  | nil => simp [upd_epoch_loop]
  | cons m ms ih =>
    intro c hc
    simp only [upd_epoch_loop, List.mem_append] at hc
    rcases hc with h | h
    · split at h
      · simpa using h
      · simp at h
    · exact ih c h

/-- C1 (amended): in `BaseModelManager`'s epoch loop, `save_model()` is
invoked at end of phase if and only if the phase is `val` and some
save-triggering metric's `update_best()` returned true; `MLTrainManager.train`,
by contrast, additionally invokes `save_model()` unconditionally once per
call (see the counterexample). -/
theorem C1_amended_save_iff (phase : String) (la : ℚ) (ms : List MMetric) :
    BackendCall.save ∈ (update_by_epoch_mgr phase la ms).2 ↔
      (phase = "val" ∧ ∃ m ∈ ms, m.save_model = true ∧
        (update_best m.direction (m.meters phase)).1 = true) := by
  unfold update_by_epoch_mgr
  constructor
  · intro h
    rcases List.mem_append.1 h with h | h
    · rcases (upd_epoch_loop_save_mem phase ms).1 h with ⟨m, hm, h1, h2, h3⟩
      exact ⟨h3, m, hm, h1, h2⟩
    · split at h <;> simp at h
  · rintro ⟨hph, m, hm, h1, h2⟩
    exact List.mem_append.2 (Or.inl ((upd_epoch_loop_save_mem phase ms).2 ⟨m, hm, h1, h2, hph⟩))

/-- Witness for C1 (amended): a save-triggering metric whose val average
improved does cause `save_model()` at the end of a val phase. -/
theorem C1_amended_save_iff_witness :
    BackendCall.save ∈ (update_by_epoch_mgr "val" 1
      [{ name := "loss", save_model := true, direction := Direction.lowerIsBetter,
         meters := fun _ => { value := 0, sum := 1, count := 1, best_score := 5 } }]).2 :=
  (C1_amended_save_iff "val" 1 _).mpr
    ⟨rfl, _, List.mem_cons_self _ _, rfl, by norm_num [update_best, AverageMeter.average]⟩

/-- Counterexample to C1 as stated: `MLTrainManager.train` with
`with_validate=False` executes no val phase and consults no
`update_best()`, yet still invokes `save_model()` (unconditionally, at the
end of the call). -/
theorem C1_counterexample :
    (mltm_train false false false ["train"] (fun _ => 1) (fun _ => []) (fun _ => [])
        [("train", [])]).map MLTrainResult.saveCalled = some true ∧
    "val" ∉ phases_of false false := by
  exact ⟨rfl, by decide⟩

/-- C7 (amended): at the end of every train phase — and of no val phase —
`_update_by_epoch` calls `backend.anneal_lr(learning_anneal)`; it never
calls `backend.update_by_epoch(phase)` for any phase (the hook exists on
the backend as a default no-op but the orchestrator does not invoke it). -/
theorem C7_amended_anneal_only (phase : String) (la : ℚ) (ms : List MMetric) :
    (BackendCall.anneal la ∈ (update_by_epoch_mgr phase la ms).2 ↔ phase = "train") ∧
    ∀ p, BackendCall.epochHook p ∉ (update_by_epoch_mgr phase la ms).2 := by
  have hall := upd_epoch_loop_calls_save phase ms
  unfold update_by_epoch_mgr
  constructor
  · constructor
    · intro h
      rcases List.mem_append.1 h with h | h
      · exact absurd (hall _ h) (by simp)
      · by_cases ht : phase = "train"
        · exact ht
        · rw [if_neg ht] at h
          simp at h
    · intro h
      subst h
      simp
  · intro p h
    rcases List.mem_append.1 h with h | h
    · exact absurd (hall _ h) (by simp)
    · split at h <;> simp at h

/-- Witness for C7 (amended): at the end of a concrete train phase the
anneal call is emitted. -/
theorem C7_amended_anneal_only_witness :
    BackendCall.anneal (11 / 10) ∈ (update_by_epoch_mgr "train" (11 / 10) []).2 :=
  (C7_amended_anneal_only "train" (11 / 10) []).1.mpr rfl

/-- Counterexample to C7 as stated: at the end of a concrete train phase
the orchestrator emits `anneal_lr` but no `update_by_epoch(phase)` backend
call. -/
theorem C7_counterexample :
    BackendCall.anneal (11 / 10) ∈ (update_by_epoch_mgr "train" (11 / 10)
      [{ name := "loss", save_model := true, direction := Direction.lowerIsBetter,
         meters := fun _ => { value := 0, sum := 0, count := 0, best_score := 0 } }]).2 ∧
    BackendCall.epochHook "train" ∉ (update_by_epoch_mgr "train" (11 / 10)
      [{ name := "loss", save_model := true, direction := Direction.lowerIsBetter,
         meters := fun _ => { value := 0, sum := 0, count := 0, best_score := 0 } }]).2 := by
  have h : (update_by_epoch_mgr "train" (11 / 10)
      [{ name := "loss", save_model := true, direction := Direction.lowerIsBetter,
         meters := fun _ => { value := 0, sum := 0, count := 0, best_score := 0 } }]).2 =
      [BackendCall.anneal (11 / 10)] := by
    simp [update_by_epoch_mgr, upd_epoch_loop]
  rw [h]
  exact ⟨List.mem_singleton_self _, by simp⟩

/-- In any completed walk of the test metric loop, every non-loss metric
name is updated with 10000000, every non-loss update carries 10000000, and
for classify no update of a metric named loss is ever issued. -/
theorem test_loop_spec (c nn : Bool) (cv : ℚ) :
    ∀ (names : List String) (lv : Option ℚ) (us : List (String × ℚ)),
      test_metric_loop c nn cv names lv = some us →
      (∀ n ∈ names, n ≠ "loss" → (n, (10000000 : ℚ)) ∈ us) ∧
      (∀ p ∈ us, p.1 ≠ "loss" → p.2 = (10000000 : ℚ)) ∧
      (c = true → ∀ v, ("loss", v) ∉ us) := by
  intro names
  induction names with
  | nil =>
    intro lv us h
    simp only [test_metric_loop, Option.some.injEq] at h
    subst h
    simp
  | cons name rest ih =>
    intro lv us h
    by_cases hn : name = "loss"
    · subst hn
      rw [test_metric_loop, if_pos rfl] at h
      by_cases hcl : c = true
      · rw [if_pos hcl] at h
        obtain ⟨h1, h2, h3⟩ := ih lv us h
        refine ⟨?_, h2, h3⟩
        intro n hmem hne
        rcases List.mem_cons.1 hmem with h' | h'
        · exact absurd h' hne
        · exact h1 n h' hne
      · rw [if_neg hcl] at h
        cases hv : (if nn then some cv else lv) with
        | none =>
          rw [hv] at h
          exact absurd h (by simp)
        | some v =>
          rw [hv] at h
          rcases Option.map_eq_some'.1 h with ⟨us', hus', heq⟩
          subst heq
          obtain ⟨h1, h2, h3⟩ := ih (some v) us' hus'
          refine ⟨?_, ?_, ?_⟩
          · intro n hmem hne
            rcases List.mem_cons.1 hmem with h' | h'
            · exact absurd h' hne
            · exact List.mem_cons_of_mem _ (h1 n h' hne)
          · intro p hp hpne
            rcases List.mem_cons.1 hp with h' | h'
            · rw [h'] at hpne
              simp at hpne
            · exact h2 p h' hpne
          · intro hc
            exact absurd hc hcl
    · rw [test_metric_loop, if_neg hn] at h
      rcases Option.map_eq_some'.1 h with ⟨us', hus', heq⟩
      subst heq
      obtain ⟨h1, h2, h3⟩ := ih (some 10000000) us' hus'
      refine ⟨?_, ?_, ?_⟩
      · intro n hmem hne
        rcases List.mem_cons.1 hmem with h' | h'
        · subst h'
          exact List.mem_cons_self _ _
        · exact List.mem_cons_of_mem _ (h1 n h' hne)
      · intro p hp hpne
        rcases List.mem_cons.1 hp with h' | h'
        · rw [h']
        · exact h2 p h' hpne
      · intro hc v hmem
        rcases List.mem_cons.1 hmem with h' | h'
        · exact hn (congrArg Prod.fst h').symm
        · exact h3 hc v h'

/-- Counterexample to C9 as stated: a regress run with a non-rnn/cnn model
whose first metric is named loss reads the still-unbound `loss_value`
(Python `UnboundLocalError`) and aborts, so the following non-loss metric
is never updated with 10000000. -/
theorem C9_counterexample :
    test_metric_updates false false 1 ["loss", "accuracy"] = none ∧
    ¬ ∃ us, test_metric_updates false false 1 ["loss", "accuracy"] = some us ∧
        ("accuracy", (10000000 : ℚ)) ∈ us := by
  refine ⟨rfl, ?_⟩
  rintro ⟨us, h, _⟩
  exact Option.noConfusion h

/-- C9 (amended): in every `test()` call whose metric loop completes
without error, every metric whose name is not `loss` is updated with the
constant placeholder loss value 10000000 (and with nothing else), and for
classify tasks the metric named `loss` is skipped entirely — never updated
in the test phase. -/
theorem C9_amended_test_updates (c nn : Bool) (cv : ℚ) (names : List String)
    (us : List (String × ℚ)) (h : test_metric_updates c nn cv names = some us) :
    (∀ n ∈ names, n ≠ "loss" → (n, (10000000 : ℚ)) ∈ us) ∧
    (∀ p ∈ us, p.1 ≠ "loss" → p.2 = (10000000 : ℚ)) ∧
    (c = true → ∀ v, ("loss", v) ∉ us) :=
  test_loop_spec c nn cv names none us h

/-- Witness for C9 (amended): in a classify test run with metrics
loss and accuracy, accuracy is updated with 10000000. -/
theorem C9_amended_test_updates_witness :
    ("accuracy", (10000000 : ℚ)) ∈ [("accuracy", (10000000 : ℚ))] :=
  (C9_amended_test_updates true false 1 ["loss", "accuracy"]
      [("accuracy", (10000000 : ℚ))] rfl).1 "accuracy" (by simp) (by simp)

/-- C10: every completed `MLTrainManager.train` call invokes `save_model()`
unconditionally, and for every metric of every executed phase the
metric's `average_meter.best_score` has been overwritten with the current
phase average — regardless of direction or of any previously stored
best. -/
theorem C10_best_overwrite_and_save (wv ov es : Bool) (lk : List String)
    (fitF : Bool → ℚ) (pF lF : String → List ℚ)
    (ms : List (String × List TMetric)) (r : MLTrainResult)
    (h : mltm_train wv ov es lk fitF pF lF ms = some r) :
    r.saveCalled = true ∧
    ∀ ph l, (ph, l) ∈ r.metricsOut → ph ∈ phases_of wv ov →
      ∀ m ∈ l, m.meter.best_score = m.meter.average := by
  simp only [mltm_train] at h
  split at h
  · split at h
    · injection h with h
      subst h
      refine ⟨rfl, ?_⟩
      intro ph l hmem hph m hm
      simp only [List.mem_map] at hmem
      rcases hmem with ⟨⟨ph0, l0⟩, hin, heq⟩
      obtain ⟨hp, hl⟩ := Prod.mk.injEq .. |>.mp heq
      subst hp
      rw [if_pos hph] at hl
      subst hl
      simp only [List.mem_map] at hm
      rcases hm with ⟨m0, hm0, rfl⟩
      rfl
    · exact absurd h (by simp)
  · exact absurd h (by simp)

/-- Slice assignment right at the boundary of an already-written prefix
leaves the prefix intact and overwrites the head of the suffix. -/
theorem write_slice_at_prefix (pre suf vals : List ℚ) :
    write_slice (pre ++ suf) pre.length vals = pre ++ vals ++ suf.drop vals.length := by
  unfold write_slice
  rw [List.take_left]
  congr 1
  rw [List.drop_append_eq_append_drop]
  have h1 : List.drop (pre.length + vals.length) pre = [] := by
    apply List.drop_eq_nil_of_le
    omega
  rw [h1]
  simp

/-- The buffer loop of `_predict` writes each batch into its own block:
starting from an already-written prefix of `i` blocks and a sentinel-filled
suffix, it produces the batches padded with sentinels to block size `B`. -/
theorem fill_loop_spec (B : ℕ) :
    ∀ (bs : List (List ℚ)) (i : ℕ) (pre suf : List ℚ),
      pre.length = i * B → suf.length = bs.length * B →
      (∀ b ∈ bs, b.length ≤ B) → (∀ x ∈ suf, x = sentinel) →
      fill_loop B i bs (pre ++ suf) =
        pre ++ (bs.map (fun b => b ++ List.replicate (B - b.length) sentinel)).flatten := by
  intro bs
  induction bs with
  | nil =>
    intro i pre suf hpre hsuf _ _
    have hnil : suf = [] := List.eq_nil_of_length_eq_zero (by simpa using hsuf)
    subst hnil
    simp [fill_loop]
  | cons b bs ih =>
    intro i pre suf hpre hsuf hlenb hsent
    have hbB : b.length ≤ B := hlenb b (List.mem_cons_self _ _)
    have hsufB : B ≤ suf.length := by
      rw [hsuf, List.length_cons, Nat.succ_mul]
      omega
    show fill_loop B (i + 1) bs (write_slice (pre ++ suf) (i * B) b) = _
    rw [← hpre, write_slice_at_prefix]
    have hkey : (suf.drop b.length).take (B - b.length) =
        List.replicate (B - b.length) sentinel := by
      have hall : ∀ x ∈ (suf.drop b.length).take (B - b.length), x = sentinel := fun x hx =>
        hsent x (List.mem_of_mem_drop (List.mem_of_mem_take hx))
      have hlen1 : ((suf.drop b.length).take (B - b.length)).length = B - b.length := by
        rw [List.length_take, List.length_drop]
        omega
      rw [List.eq_replicate_of_mem hall, hlen1]
    have hsplit : pre ++ b ++ suf.drop b.length =
        (pre ++ (b ++ List.replicate (B - b.length) sentinel)) ++
          (suf.drop b.length).drop (B - b.length) := by
      conv_lhs => rw [← List.take_append_drop (B - b.length) (suf.drop b.length)]
      rw [hkey]
      simp [List.append_assoc]
    rw [hsplit]
    have hp : (pre ++ (b ++ List.replicate (B - b.length) sentinel)).length = (i + 1) * B := by
      simp only [List.length_append, List.length_replicate, hpre]
      rw [Nat.succ_mul]
      omega
    have hs : ((suf.drop b.length).drop (B - b.length)).length = bs.length * B := by
      simp only [List.length_drop]
      rw [hsuf, List.length_cons, Nat.succ_mul]
      omega
    have hl : ∀ b' ∈ bs, b'.length ≤ B := fun b' hb' => hlenb b' (List.mem_cons_of_mem _ hb')
    have hsen : ∀ x ∈ (suf.drop b.length).drop (B - b.length), x = sentinel := fun x hx =>
      hsent x (List.mem_of_mem_drop (List.mem_of_mem_drop hx))
    rw [ih (i + 1) _ _ hp hs hl hsen]
    simp [List.append_assoc]

/-- The filled `_predict` buffer equals the batches, each padded to block
size with the sentinel value. -/
theorem predict_fill_spec (B : ℕ) (bs : List (List ℚ)) (h : ∀ b ∈ bs, b.length ≤ B) :
    predict_fill B bs =
      (bs.map (fun b => b ++ List.replicate (B - b.length) sentinel)).flatten := by
  have hmain := fill_loop_spec B bs 0 [] (List.replicate (bs.length * B) sentinel)
    (by simp) (by simp) h (fun x hx => List.eq_of_mem_replicate hx)
  simpa [predict_fill] using hmain

/-- Filtering distributes over a flattened list of lists. -/
theorem filter_flatten_sentinel (p : ℚ → Bool) (L : List (List ℚ)) :
    L.flatten.filter p = (L.map (fun l => l.filter p)).flatten := by
  induction L with
  | nil => rfl
  | cons a L ih => simp [List.filter_append, ih]

/-- Stripping the sentinel from one padded block recovers the original
batch, provided no batch value equals the sentinel. -/
theorem filter_pad_sentinel (B : ℕ) (b : List ℚ) (hb : ∀ x ∈ b, x ≠ sentinel) :
    (b ++ List.replicate (B - b.length) sentinel).filter
        (fun x => decide (x ≠ sentinel)) = b := by
  rw [List.filter_append]
  have h1 : b.filter (fun x => decide (x ≠ sentinel)) = b :=
    List.filter_eq_self.mpr (fun a ha => by simpa using hb a ha)
  have h2 : (List.replicate (B - b.length) sentinel).filter
      (fun x => decide (x ≠ sentinel)) = [] := by
    rw [List.filter_eq_nil_iff]
    intro a ha
    simp [List.eq_of_mem_replicate ha]
  rw [h1, h2, List.append_nil]

/-- Counterexample to C2 as stated: the sentinel pre-fill value does
collide with a legitimate value — with batch size 2 and one batch whose
first prediction is the legitimate value -1000000, `_predict` drops that
sample, returning an array of length 1 instead of the true sample count
2. -/
theorem C2_counterexample :
    predict_agg 2 [[(-1000000 : ℚ), 3]] = [3] ∧
    ([[(-1000000 : ℚ), 3]] : List (List ℚ)).flatten.length = 2 ∧
    (predict_agg 2 [[(-1000000 : ℚ), 3]]).length ≠
      ([[(-1000000 : ℚ), 3]] : List (List ℚ)).flatten.length := by
  refine ⟨by decide, rfl, by decide⟩

/-- C2 (amended): for every sequence of batches of size at most the
configured batch size (the final batch may be shorter), as long as no
legitimate prediction/label value equals the sentinel -1000000, the
`_predict` aggregation returns exactly the concatenation of the batches in
order — hence its length is the true total sample count, it contains no
sentinel-marked entries, and no sample is duplicated or dropped (zero and
other negative values included). A value equal to the sentinel itself is
dropped (see the counterexample). The same routine produces both the
prediction and the label array. -/
theorem C2_amended_predict_agg (B : ℕ) (bs : List (List ℚ))
    (hlen : ∀ b ∈ bs, b.length ≤ B) (hval : ∀ b ∈ bs, ∀ x ∈ b, x ≠ sentinel) :
    predict_agg B bs = bs.flatten := by
  unfold predict_agg
  rw [predict_fill_spec B bs hlen, filter_flatten_sentinel, List.map_map]
  have hm : bs.map ((fun l => l.filter (fun x => decide (x ≠ sentinel))) ∘
      (fun b => b ++ List.replicate (B - b.length) sentinel)) = bs.map id := by
    apply List.map_congr_left
    intro b hb
    simp only [Function.comp, id]
    exact filter_pad_sentinel B b (hval b hb)
  rw [hm, List.map_id]

/-- Witness for C2 (amended): two full batches and a short final batch of
sentinel-free values aggregate to exactly their concatenation. -/
theorem C2_amended_predict_agg_witness :
    predict_agg 2 [[(1 : ℚ), 2], [3]] = [[(1 : ℚ), 2], [3]].flatten :=
  C2_amended_predict_agg 2 [[1, 2], [3]] (by decide) (by decide)

/-- Witness for C10 at a concrete completing call: the save flag of the
produced result is set. -/
theorem C10_best_overwrite_and_save_witness :
    ({ metricsOut := [("train", []), ("val", [])], saveCalled := true,
       predictsLast := [] } : MLTrainResult).saveCalled = true :=
  (C10_best_overwrite_and_save true false false ["train", "val"] (fun _ => (1 : ℚ))
      (fun _ => ([] : List ℚ)) (fun _ => ([] : List ℚ)) [("train", []), ("val", [])]
      { metricsOut := [("train", []), ("val", [])], saveCalled := true,
        predictsLast := [] } rfl).1

end MlDl
